import Mathlib

/-!
Verification of the KeyResolve event remapper (src/main.rs).

The program exclusively grabs a keyboard, runs a poll-driven event loop,
and performs SOCD cleaning for two axis pairs (A/D and W/S) before
re-emitting events through a synthetic device.  This file shallowly embeds
the state machine of `main` (lines 87-197) and the `emit` helper, and
proves or refutes the frozen specification claims about it.
-/

namespace SnapTap

/-- An evdev input event: event type, key code, and value, mirroring
`InputEvent` as used by the source (`ev.event_type()`, `ev.code()`,
`ev.value()`).  The value is an `i32` in the source; only 0/1/2 matter. -/
structure InputEvent where
  event_type : Nat
  code : Nat
  value : Int
deriving DecidableEq, Repr

/-- `EventType::KEY.0` in evdev. -/
def EV_KEY : Nat := 1

/-- `evdev::KeyCode::KEY_A.code()`. -/
def KEY_A : Nat := 30

/-- `evdev::KeyCode::KEY_D.code()`. -/
def KEY_D : Nat := 32

/-- `evdev::KeyCode::KEY_W.code()`. -/
def KEY_W : Nat := 17

/-- `evdev::KeyCode::KEY_S.code()`. -/
def KEY_S : Nat := 31

/-- The four mutable booleans of `main` (lines 88-91). -/
structure KeyState where
  a_down : Bool
  d_down : Bool
  w_down : Bool
  s_down : Bool
deriving DecidableEq, Repr

/-- Initial state: all four flags start `false` (lines 88-91). -/
def initState : KeyState := ⟨false, false, false, false⟩

/-- The event built by the `emit` helper (line 201):
`InputEvent::new(EventType::KEY.0, key.code(), value)`. -/
def emitEvent (code : Nat) (value : Int) : InputEvent :=
  ⟨EV_KEY, code, value⟩

/-- The body of the `for ev in dev.fetch_events()?` loop (lines 122-190):
given the current flags and one event, return the updated flags and the
list of events emitted to the virtual device, in emission order.
Non-KEY events fall outside the `if` at line 123 and produce nothing. -/
def handleEvent (st : KeyState) (ev : InputEvent) : KeyState × List InputEvent :=
  if ev.event_type = EV_KEY then
    if ev.code = KEY_A then
      if ev.value = 1 then
        (⟨true, st.d_down, st.w_down, st.s_down⟩,
          emitEvent KEY_A 1 :: (if st.d_down then [emitEvent KEY_D 0] else []))
      else if ev.value = 0 then
        (⟨false, st.d_down, st.w_down, st.s_down⟩,
          emitEvent KEY_A 0 :: (if st.d_down then [emitEvent KEY_D 1] else []))
      else (st, [])
    else if ev.code = KEY_D then
      if ev.value = 1 then
        (⟨st.a_down, true, st.w_down, st.s_down⟩,
          emitEvent KEY_D 1 :: (if st.a_down then [emitEvent KEY_A 0] else []))
      else if ev.value = 0 then
        (⟨st.a_down, false, st.w_down, st.s_down⟩,
          emitEvent KEY_D 0 :: (if st.a_down then [emitEvent KEY_A 1] else []))
      else (st, [])
    else if ev.code = KEY_W then
      if ev.value = 1 then
        (⟨st.a_down, st.d_down, true, st.s_down⟩,
          emitEvent KEY_W 1 :: (if st.s_down then [emitEvent KEY_S 0] else []))
      else if ev.value = 0 then
        (⟨st.a_down, st.d_down, false, st.s_down⟩,
          emitEvent KEY_W 0 :: (if st.s_down then [emitEvent KEY_S 1] else []))
      else (st, [])
    else if ev.code = KEY_S then
      if ev.value = 1 then
        (⟨st.a_down, st.d_down, st.w_down, true⟩,
          emitEvent KEY_S 1 :: (if st.w_down then [emitEvent KEY_W 0] else []))
      else if ev.value = 0 then
        (⟨st.a_down, st.d_down, st.w_down, false⟩,
          emitEvent KEY_S 0 :: (if st.w_down then [emitEvent KEY_W 1] else []))
      else (st, [])
    else
      (st, [ev])
  else
    (st, [])

/-- Drain a whole batch of fetched events in order, concatenating the
emissions (the inner `for` loop of lines 122-191). -/
def processEvents (st : KeyState) : List InputEvent → KeyState × List InputEvent
  | [] => (st, [])
  | ev :: rest =>
    ((processEvents (handleEvent st ev).1 rest).1,
     (handleEvent st ev).2 ++ (processEvents (handleEvent st ev).1 rest).2)

/-- Fold step for tracking whether a key is currently "active" in the
emitted stream: a KEY event for `code` overwrites the bit with
whether its value is 1 (pressed); other events leave it alone. -/
def updActive (code : Nat) (b : Bool) (e : InputEvent) : Bool :=
  if e.event_type = EV_KEY ∧ e.code = code then decide (e.value = 1) else b

/-- Last emitted press/release status of `code` in `out`, starting from `b`. -/
def lastActive (code : Nat) (b : Bool) (out : List InputEvent) : Bool :=
  out.foldl (updActive code) b

/-- A key is active in an output stream when the last emitted KEY event
for it has value 1; with no such event it is inactive. -/
def isActive (code : Nat) (out : List InputEvent) : Bool :=
  lastActive code false out

/-- Inductive invariant tying the emitted-stream active bits to the held
flags: an active output implies its key is physically held, and neither
axis pair ever has both outputs active. -/
abbrev PairInv (st : KeyState) (aA aD aW aS : Bool) : Prop :=
  (aA = true → st.a_down = true) ∧ (aD = true → st.d_down = true) ∧
  (aW = true → st.w_down = true) ∧ (aS = true → st.s_down = true) ∧
  ¬(aA = true ∧ aD = true) ∧ ¬(aW = true ∧ aS = true)

/-- Result of one `poll(&mut poll_fds, 50)` call (line 105): `Ok(n)`,
`Err(EINTR)`, or any other fatal errno. -/
inductive PollResult where
  | ok (n : Nat)
  | eintr
  | err
deriving DecidableEq, Repr

/-- The environment's contribution to one top-of-loop iteration: the value
`running.load` returns (line 103), the poll outcome (line 105), what
`poll_fds[0].revents()` reports (line 116, the Bool being whether POLLIN
is contained), and what `dev.fetch_events()` yields at line 122
(`none` models a hard read error `Err`). -/
structure IterInput where
  runningFlag : Bool
  pollResult : PollResult
  revents : Option Bool
  fetchResult : Option (List InputEvent)
deriving DecidableEq, Repr

/-- How a run of the modelled loop ends: the `while` condition observed
`false` (cancellation), the early `return Err` at line 108, the `?` at
line 122, or the modelled environment trace ran out while still running. -/
inductive ExitKind where
  | cancelled
  | pollError
  | readError
  | traceEnded
deriving DecidableEq, Repr

/-- The event loop of lines 103-193, driven by a finite trace of
per-iteration environment inputs: returns final flags, the concatenated
emission stream, and how the loop ended. -/
def runLoop (st : KeyState) : List IterInput → KeyState × List InputEvent × ExitKind
  | [] => (st, [], ExitKind.traceEnded)
  | it :: rest =>
    if it.runningFlag = false then
      (st, [], ExitKind.cancelled)
    else
      match it.pollResult with
      | PollResult.err => (st, [], ExitKind.pollError)
      | PollResult.eintr => runLoop st rest
      | PollResult.ok n =>
        if n = 0 then runLoop st rest
        else
          match it.revents with
          | none => runLoop st rest
          | some hasPollin =>
            if hasPollin = false then runLoop st rest
            else
              match it.fetchResult with
              | none => (st, [], ExitKind.readError)
              | some evs =>
                ((runLoop (processEvents st evs).1 rest).1,
                 (processEvents st evs).2 ++
                   (runLoop (processEvents st evs).1 rest).2.1,
                 (runLoop (processEvents st evs).1 rest).2.2)

/-- Externally visible actions of `main` from the loop onwards: an event
emitted to the virtual device, the "Releasing keyboard" message (line
195), and the `dev.ungrab()` call (line 196). -/
inductive ProgAction where
  | emitted (ev : InputEvent)
  | printedRelease
  | ungrab
deriving DecidableEq, Repr

/-- `main` from line 103 to its return: run the loop; only when the
`while` exits normally (cancellation) do lines 195-196 print and ungrab;
the early `return Err` paths (lines 108 and 122) skip them. -/
def runMain (st : KeyState) (trace : List IterInput) : List ProgAction × ExitKind :=
  match runLoop st trace with
  | (_, out, ExitKind.cancelled) =>
    (out.map ProgAction.emitted ++ [ProgAction.printedRelease, ProgAction.ungrab],
     ExitKind.cancelled)
  | (_, out, ek) => (out.map ProgAction.emitted, ek)

/-- Attach to each attempted emission the success bit the sink returns
for it (`oracle k` for the k-th attempt of the run).  The source discards
this bit (`let _ = vdev.emit(..)`, lines 187 and 202). -/
def attachResults (oracle : Nat → Bool) (k : Nat) :
    List InputEvent → List (InputEvent × Bool)
  | [] => []
  | e :: es => (e, oracle k) :: attachResults oracle (k + 1) es

/-- Batch processing with the per-emission sink outcomes made explicit:
identical control flow to `processEvents`, but every attempted emission
is logged together with the success bit the sink reported for it. -/
def processEventsBE (oracle : Nat → Bool) (k : Nat) (st : KeyState) :
    List InputEvent → KeyState × List (InputEvent × Bool)
  | [] => (st, [])
  | ev :: rest =>
    ((processEventsBE oracle (k + (handleEvent st ev).2.length)
        (handleEvent st ev).1 rest).1,
     attachResults oracle k (handleEvent st ev).2 ++
       (processEventsBE oracle (k + (handleEvent st ev).2.length)
         (handleEvent st ev).1 rest).2)

/-- Folding the active bit distributes over concatenated emission streams. -/
lemma lastActive_append (code : Nat) (b : Bool) (xs ys : List InputEvent) :
    lastActive code b (xs ++ ys) = lastActive code (lastActive code b xs) ys :=
  List.foldl_append (updActive code) b xs ys

/-- One handled event preserves the pair invariant. -/
lemma pairInv_step (ev : InputEvent) (st : KeyState) (aA aD aW aS : Bool)
    (h : PairInv st aA aD aW aS) :
    PairInv (handleEvent st ev).1
      (lastActive KEY_A aA (handleEvent st ev).2)
      (lastActive KEY_D aD (handleEvent st ev).2)
      (lastActive KEY_W aW (handleEvent st ev).2)
      (lastActive KEY_S aS (handleEvent st ev).2) := by
  obtain ⟨t, c, v⟩ := ev
  obtain ⟨a, d, w, s⟩ := st
  by_cases ht : t = EV_KEY
  · subst ht
    by_cases hA : c = KEY_A
    · subst hA
      by_cases h1 : v = 1
      · subst h1; revert h; revert a d w s aA aD aW aS; decide
      · by_cases h0 : v = 0
        · subst h0; revert h; revert a d w s aA aD aW aS; decide
        · simpa [handleEvent, h1, h0, lastActive] using h
    · by_cases hD : c = KEY_D
      · subst hD
        by_cases h1 : v = 1
        · subst h1; revert h; revert a d w s aA aD aW aS; decide
        · by_cases h0 : v = 0
          · subst h0; revert h; revert a d w s aA aD aW aS; decide
          · simpa [handleEvent, h1, h0, lastActive] using h
      · by_cases hW : c = KEY_W
        · subst hW
          by_cases h1 : v = 1
          · subst h1; revert h; revert a d w s aA aD aW aS; decide
          · by_cases h0 : v = 0
            · subst h0; revert h; revert a d w s aA aD aW aS; decide
            · simpa [handleEvent, h1, h0, hA, hD, lastActive] using h
        · by_cases hS : c = KEY_S
          · subst hS
            by_cases h1 : v = 1
            · subst h1; revert h; revert a d w s aA aD aW aS; decide
            · by_cases h0 : v = 0
              · subst h0; revert h; revert a d w s aA aD aW aS; decide
              · simpa [handleEvent, h1, h0, hA, hD, hW, lastActive] using h
          · simpa [handleEvent, hA, hD, hW, hS, lastActive, updActive] using h
  · simpa [handleEvent, ht, lastActive] using h

/-- The pair invariant is preserved across any drained batch. -/
lemma pairInv_run (evs : List InputEvent) (st : KeyState) (aA aD aW aS : Bool)
    (h : PairInv st aA aD aW aS) :
    PairInv (processEvents st evs).1
      (lastActive KEY_A aA (processEvents st evs).2)
      (lastActive KEY_D aD (processEvents st evs).2)
      (lastActive KEY_W aW (processEvents st evs).2)
      (lastActive KEY_S aS (processEvents st evs).2) := by
  induction evs generalizing st aA aD aW aS with
  | nil => simpa [processEvents, lastActive] using h
  | cons ev rest ih =>
    have hstep := pairInv_step ev st aA aD aW aS h
    have hrest := ih (handleEvent st ev).1
      (lastActive KEY_A aA (handleEvent st ev).2)
      (lastActive KEY_D aD (handleEvent st ev).2)
      (lastActive KEY_W aW (handleEvent st ev).2)
      (lastActive KEY_S aS (handleEvent st ev).2) hstep
    simpa [processEvents, lastActive_append] using hrest

/-- Claim C1: for each axis pair (A/D and W/S), after processing any finite
sequence of key transitions from the all-false initial state, at most one
key of the pair is active in the emitted output stream (the last emitted
value is "pressed" for at most one member); this holds at every point of
the run since the input sequence is arbitrary, so every prefix is covered. -/
theorem mutual_exclusion_of_axis_outputs (evs : List InputEvent) :
    (isActive KEY_A (processEvents initState evs).2 &&
      isActive KEY_D (processEvents initState evs).2) = false ∧
    (isActive KEY_W (processEvents initState evs).2 &&
      isActive KEY_S (processEvents initState evs).2) = false := by
  have h := pairInv_run evs initState false false false false (by decide)
  have hb : ∀ x y : Bool, ¬(x = true ∧ y = true) → (x && y) = false := by decide
  exact ⟨hb _ _ h.2.2.2.2.1, hb _ _ h.2.2.2.2.2⟩

/-- Claim C2: from both flags false, Pressed(X), Pressed(Y), Released(Y)
emits exactly [Pressed(X), Pressed(Y), Released(X), Released(Y),
Pressed(X)], for all four orientations of the two pairs; and the
horizontal scenario Pressed(A), Pressed(D), Released(D), Released(A)
emits Pressed(A), then Pressed(D) Released(A), then Released(D)
Pressed(A), then Released(A). -/
theorem restoration_sequences :
    (processEvents initState
        [emitEvent KEY_A 1, emitEvent KEY_D 1, emitEvent KEY_D 0]).2 =
      [emitEvent KEY_A 1, emitEvent KEY_D 1, emitEvent KEY_A 0,
       emitEvent KEY_D 0, emitEvent KEY_A 1] ∧
    (processEvents initState
        [emitEvent KEY_D 1, emitEvent KEY_A 1, emitEvent KEY_A 0]).2 =
      [emitEvent KEY_D 1, emitEvent KEY_A 1, emitEvent KEY_D 0,
       emitEvent KEY_A 0, emitEvent KEY_D 1] ∧
    (processEvents initState
        [emitEvent KEY_W 1, emitEvent KEY_S 1, emitEvent KEY_S 0]).2 =
      [emitEvent KEY_W 1, emitEvent KEY_S 1, emitEvent KEY_W 0,
       emitEvent KEY_S 0, emitEvent KEY_W 1] ∧
    (processEvents initState
        [emitEvent KEY_S 1, emitEvent KEY_W 1, emitEvent KEY_W 0]).2 =
      [emitEvent KEY_S 1, emitEvent KEY_W 1, emitEvent KEY_S 0,
       emitEvent KEY_W 0, emitEvent KEY_S 1] ∧
    (processEvents initState
        [emitEvent KEY_A 1, emitEvent KEY_D 1, emitEvent KEY_D 0,
         emitEvent KEY_A 0]).2 =
      [emitEvent KEY_A 1, emitEvent KEY_D 1, emitEvent KEY_A 0,
       emitEvent KEY_D 0, emitEvent KEY_A 1, emitEvent KEY_A 0] := by
  decide

/-- Claim C3 counterexample: a duplicate Pressed(A) while `a_down` is
already true does emit an action (it re-emits Pressed(A)), refuting "no
emitted action" on duplicate presses. -/
theorem duplicate_press_emits :
    (handleEvent ⟨true, false, false, false⟩ ⟨EV_KEY, KEY_A, 1⟩).2.isEmpty =
      false ∧
    (handleEvent ⟨true, false, false, false⟩ ⟨EV_KEY, KEY_A, 1⟩).2 =
      [emitEvent KEY_A 1] := by
  decide

/-- Claim C3 amended: the handler never filters duplicates — a Pressed(X)
with the flag already true leaves the state unchanged but still emits
Pressed(X) (plus Released(Y) when the partner flag is set), and a
Released(X) with the flag already false leaves the state unchanged but
still emits Released(X) (plus Pressed(Y) when the partner flag is set). -/
theorem duplicate_transition_reemitted (a d w s : Bool) :
    (a = true →
      handleEvent ⟨a, d, w, s⟩ ⟨EV_KEY, KEY_A, 1⟩ =
        (⟨a, d, w, s⟩,
         emitEvent KEY_A 1 :: (if d then [emitEvent KEY_D 0] else []))) ∧
    (a = false →
      handleEvent ⟨a, d, w, s⟩ ⟨EV_KEY, KEY_A, 0⟩ =
        (⟨a, d, w, s⟩,
         emitEvent KEY_A 0 :: (if d then [emitEvent KEY_D 1] else []))) ∧
    (d = true →
      handleEvent ⟨a, d, w, s⟩ ⟨EV_KEY, KEY_D, 1⟩ =
        (⟨a, d, w, s⟩,
         emitEvent KEY_D 1 :: (if a then [emitEvent KEY_A 0] else []))) ∧
    (d = false →
      handleEvent ⟨a, d, w, s⟩ ⟨EV_KEY, KEY_D, 0⟩ =
        (⟨a, d, w, s⟩,
         emitEvent KEY_D 0 :: (if a then [emitEvent KEY_A 1] else []))) ∧
    (w = true →
      handleEvent ⟨a, d, w, s⟩ ⟨EV_KEY, KEY_W, 1⟩ =
        (⟨a, d, w, s⟩,
         emitEvent KEY_W 1 :: (if s then [emitEvent KEY_S 0] else []))) ∧
    (w = false →
      handleEvent ⟨a, d, w, s⟩ ⟨EV_KEY, KEY_W, 0⟩ =
        (⟨a, d, w, s⟩,
         emitEvent KEY_W 0 :: (if s then [emitEvent KEY_S 1] else []))) ∧
    (s = true →
      handleEvent ⟨a, d, w, s⟩ ⟨EV_KEY, KEY_S, 1⟩ =
        (⟨a, d, w, s⟩,
         emitEvent KEY_S 1 :: (if w then [emitEvent KEY_W 0] else []))) ∧
    (s = false →
      handleEvent ⟨a, d, w, s⟩ ⟨EV_KEY, KEY_S, 0⟩ =
        (⟨a, d, w, s⟩,
         emitEvent KEY_S 0 :: (if w then [emitEvent KEY_W 1] else []))) := by
  revert a d w s; decide

/-- Witness for the amended C3 at a concrete state: with both horizontal
keys physically held, a duplicate Pressed(A) re-emits Pressed(A) and
Released(D) while leaving the flags untouched. -/
theorem duplicate_transition_reemitted_witness :
    handleEvent ⟨true, true, false, false⟩ ⟨EV_KEY, KEY_A, 1⟩ =
      (⟨true, true, false, false⟩, [emitEvent KEY_A 1, emitEvent KEY_D 0]) := by
  have h := (duplicate_transition_reemitted true true false false).1 rfl
  simpa using h

/-- Claim C4 counterexample: a non-key event (a synchronization marker,
type 0) is not forwarded — it produces zero emitted actions, because the
passthrough arm sits inside the `if ev.event_type() == EventType::KEY`
test (line 123). -/
theorem non_key_event_dropped :
    (handleEvent initState ⟨0, 0, 0⟩).2.isEmpty = true ∧
    handleEvent initState ⟨0, 0, 0⟩ = (initState, []) := by
  decide

/-- Claim C4 amended: a KEY event for a key outside both axis pairs is
forwarded as exactly one action identical to the input with no flag read
or written; a non-key event is silently discarded (zero emitted actions),
not forwarded. -/
theorem passthrough_and_non_key (st : KeyState) (ev : InputEvent) :
    (ev.event_type = EV_KEY → ev.code ≠ KEY_A → ev.code ≠ KEY_D →
      ev.code ≠ KEY_W → ev.code ≠ KEY_S →
      handleEvent st ev = (st, [ev])) ∧
    (ev.event_type ≠ EV_KEY → handleEvent st ev = (st, [])) := by
  constructor
  · intro ht hA hD hW hS
    simp [handleEvent, ht, hA, hD, hW, hS]
  · intro ht
    simp [handleEvent, ht]

/-- Witness for the amended C4: a press of key 16 (Q) passes through
unchanged from the initial state, and a type-0 event is dropped. -/
theorem passthrough_and_non_key_witness :
    handleEvent initState ⟨EV_KEY, 16, 1⟩ =
      (initState, [(⟨EV_KEY, 16, 1⟩ : InputEvent)]) ∧
    handleEvent initState ⟨0, 0, 0⟩ = (initState, []) :=
  ⟨(passthrough_and_non_key initState ⟨EV_KEY, 16, 1⟩).1 rfl
      (by decide) (by decide) (by decide) (by decide),
   (passthrough_and_non_key initState ⟨0, 0, 0⟩).2 (by decide)⟩

/-- Claim C6 counterexample: a Repeated (value 2) transition of key 16
(Q), which belongs to no axis pair, is forwarded through the `_` match
arm, so it produces one emitted action, not zero. -/
theorem repeated_non_pair_key_forwarded :
    (handleEvent initState ⟨EV_KEY, 16, 2⟩).2.isEmpty = false ∧
    handleEvent initState ⟨EV_KEY, 16, 2⟩ =
      (initState, [(⟨EV_KEY, 16, 2⟩ : InputEvent)]) := by
  decide

/-- Claim C6 amended: a Repeated (value 2) transition on an axis-pair key
emits nothing and mutates no flag, in every state; a Repeated transition
on any other key is forwarded unchanged as one action, still mutating no
flag. -/
theorem repeated_transitions (st : KeyState) (code : Nat) :
    ((code = KEY_A ∨ code = KEY_D ∨ code = KEY_W ∨ code = KEY_S) →
      handleEvent st ⟨EV_KEY, code, 2⟩ = (st, [])) ∧
    (code ≠ KEY_A → code ≠ KEY_D → code ≠ KEY_W → code ≠ KEY_S →
      handleEvent st ⟨EV_KEY, code, 2⟩ =
        (st, [(⟨EV_KEY, code, 2⟩ : InputEvent)])) := by
  constructor
  · rintro (rfl | rfl | rfl | rfl) <;>
      simp [handleEvent, EV_KEY, KEY_A, KEY_D, KEY_W, KEY_S]
  · intro hA hD hW hS
    simp [handleEvent, hA, hD, hW, hS]

/-- Witness for the amended C6: a repeat of A is swallowed, a repeat of
key 16 (Q) is forwarded, both from the initial state. -/
theorem repeated_transitions_witness :
    handleEvent initState ⟨EV_KEY, KEY_A, 2⟩ = (initState, []) ∧
    handleEvent initState ⟨EV_KEY, 16, 2⟩ =
      (initState, [(⟨EV_KEY, 16, 2⟩ : InputEvent)]) :=
  ⟨(repeated_transitions initState KEY_A).1 (Or.inl rfl),
   (repeated_transitions initState 16).2
      (by decide) (by decide) (by decide) (by decide)⟩

/-- Claim C10: a KEY event on an axis-pair key whose value is neither 0
nor 1 (any other integer, not just the repeat value 2) emits nothing and
leaves all four flags unchanged: the value dispatch is total with a
silent no-op default. -/
theorem axis_key_other_value_noop (st : KeyState) (code : Nat) (v : Int)
    (hc : code = KEY_A ∨ code = KEY_D ∨ code = KEY_W ∨ code = KEY_S)
    (h1 : v ≠ 1) (h0 : v ≠ 0) :
    handleEvent st ⟨EV_KEY, code, v⟩ = (st, []) := by
  rcases hc with rfl | rfl | rfl | rfl <;>
    simp [handleEvent, EV_KEY, KEY_A, KEY_D, KEY_W, KEY_S, h1, h0]

/-- Witness for C10: value 5 on key A from the initial state is a no-op. -/
theorem axis_key_other_value_noop_witness :
    handleEvent initState ⟨EV_KEY, KEY_A, 5⟩ = (initState, []) :=
  axis_key_other_value_noop initState KEY_A 5 (Or.inl rfl)
    (by decide) (by decide)

/-- Claim C9: the two axis pairs are independent — an A/D transition
leaves the vertical flags unchanged, never emits W or S, and its
emissions and horizontal result flags depend only on the horizontal
flags; symmetrically for W/S transitions. -/
theorem axis_pairs_independent (st st2 : KeyState) (ev : InputEvent) :
    (ev.event_type = EV_KEY → (ev.code = KEY_A ∨ ev.code = KEY_D) →
      ((handleEvent st ev).1.w_down = st.w_down ∧
       (handleEvent st ev).1.s_down = st.s_down ∧
       (∀ e ∈ (handleEvent st ev).2, e.code ≠ KEY_W ∧ e.code ≠ KEY_S) ∧
       (st2.a_down = st.a_down → st2.d_down = st.d_down →
         (handleEvent st2 ev).2 = (handleEvent st ev).2 ∧
         (handleEvent st2 ev).1.a_down = (handleEvent st ev).1.a_down ∧
         (handleEvent st2 ev).1.d_down = (handleEvent st ev).1.d_down))) ∧
    (ev.event_type = EV_KEY → (ev.code = KEY_W ∨ ev.code = KEY_S) →
      ((handleEvent st ev).1.a_down = st.a_down ∧
       (handleEvent st ev).1.d_down = st.d_down ∧
       (∀ e ∈ (handleEvent st ev).2, e.code ≠ KEY_A ∧ e.code ≠ KEY_D) ∧
       (st2.w_down = st.w_down → st2.s_down = st.s_down →
         (handleEvent st2 ev).2 = (handleEvent st ev).2 ∧
         (handleEvent st2 ev).1.w_down = (handleEvent st ev).1.w_down ∧
         (handleEvent st2 ev).1.s_down = (handleEvent st ev).1.s_down))) := by
  obtain ⟨t, c, v⟩ := ev
  obtain ⟨a, d, w, s⟩ := st
  obtain ⟨a2, d2, w2, s2⟩ := st2
  constructor
  · rintro rfl (rfl | rfl) <;>
    · by_cases h1 : v = 1
      · subst h1; revert a d w s a2 d2 w2 s2; decide
      · by_cases h0 : v = 0
        · subst h0; revert a d w s a2 d2 w2 s2; decide
        · simp [handleEvent, h1, h0]
          tauto
  · rintro rfl (rfl | rfl) <;>
    · by_cases h1 : v = 1
      · subst h1; revert a d w s a2 d2 w2 s2; decide
      · by_cases h0 : v = 0
        · subst h0; revert a d w s a2 d2 w2 s2; decide
        · simp [handleEvent, h1, h0]
          tauto

/-- Witness for C9: Pressed(A) from two states that agree horizontally
but differ vertically yields the same emissions, and leaves `w_down`
unchanged. -/
theorem axis_pairs_independent_witness :
    (handleEvent ⟨false, true, false, true⟩ ⟨EV_KEY, KEY_A, 1⟩).1.w_down =
      false ∧
    (handleEvent ⟨false, true, true, false⟩ ⟨EV_KEY, KEY_A, 1⟩).2 =
      (handleEvent ⟨false, true, false, true⟩ ⟨EV_KEY, KEY_A, 1⟩).2 := by
  have h := (axis_pairs_independent ⟨false, true, false, true⟩
    ⟨false, true, true, false⟩ ⟨EV_KEY, KEY_A, 1⟩).1 rfl (Or.inl rfl)
  exact ⟨h.1, (h.2.2.2 rfl rfl).1⟩

/-- Stripping the sink bits from a logged batch recovers the batch. -/
lemma attachResults_map (oracle : Nat → Bool) (k : Nat)
    (evs : List InputEvent) :
    (attachResults oracle k evs).map Prod.fst = evs := by
  induction evs generalizing k with
  | nil => rfl
  | cons e es ih => simp [attachResults, ih]

/-- The best-effort run agrees with the failure-oblivious run on both the
final flags and the attempted emission sequence. -/
lemma processEventsBE_spec (oracle : Nat → Bool) (k : Nat) (st : KeyState)
    (evs : List InputEvent) :
    (processEventsBE oracle k st evs).1 = (processEvents st evs).1 ∧
    (processEventsBE oracle k st evs).2.map Prod.fst =
      (processEvents st evs).2 := by
  induction evs generalizing k st with
  | nil => exact ⟨rfl, rfl⟩
  | cons ev rest ih =>
    constructor
    · simpa [processEventsBE, processEvents] using
        (ih (k + (handleEvent st ev).2.length) (handleEvent st ev).1).1
    · simpa [processEventsBE, processEvents, attachResults_map] using
        (ih (k + (handleEvent st ev).2.length) (handleEvent st ev).1).2

/-- Claim C7: an individual emit failure is non-fatal — for every pattern
of per-emission sink failures, the final flags and the sequence of
attempted emissions are exactly those of the failure-oblivious run, so no
flag or loop state ever changes because of a failed emit and processing
proceeds to the next action and event regardless. -/
theorem emit_failure_nonfatal (oracle oracle2 : Nat → Bool) (k k2 : Nat)
    (st : KeyState) (evs : List InputEvent) :
    (processEventsBE oracle k st evs).1 = (processEvents st evs).1 ∧
    (processEventsBE oracle k st evs).2.map Prod.fst =
      (processEvents st evs).2 ∧
    (processEventsBE oracle k st evs).1 =
      (processEventsBE oracle2 k2 st evs).1 ∧
    (processEventsBE oracle k st evs).2.map Prod.fst =
      (processEventsBE oracle2 k2 st evs).2.map Prod.fst := by
  obtain ⟨h1, h2⟩ := processEventsBE_spec oracle k st evs
  obtain ⟨g1, g2⟩ := processEventsBE_spec oracle2 k2 st evs
  exact ⟨h1, h2, h1.trans g1.symm, h2.trans g2.symm⟩

/-- Claim C8: the cancellation flag is consumed exactly once per
iteration, at the top of the loop — when the flag read at the top is
false the loop exits at once, starting no new wait and touching no
event; and when an iteration reaches a drain, the whole fetched batch is
processed and emitted before the loop (and hence cancellation) is
considered again, whatever the rest of the trace holds. -/
theorem cancellation_observed_at_top (st : KeyState) (it : IterInput)
    (rest : List IterInput) :
    (it.runningFlag = false →
      runLoop st (it :: rest) = (st, [], ExitKind.cancelled)) ∧
    (∀ evs n, it.runningFlag = true → it.pollResult = PollResult.ok n →
      n ≠ 0 → it.revents = some true → it.fetchResult = some evs →
      (runLoop st (it :: rest)).2.1 =
        (processEvents st evs).2 ++
          (runLoop (processEvents st evs).1 rest).2.1 ∧
      (runLoop st (it :: rest)).1 = (runLoop (processEvents st evs).1 rest).1 ∧
      (runLoop st (it :: rest)).2.2 =
        (runLoop (processEvents st evs).1 rest).2.2) := by
  constructor
  · intro h
    simp [runLoop, h]
  · intro evs n hr hp hn hrev hf
    simp [runLoop, hr, hp, hn, hrev, hf]

/-- Witness for C8: a false flag at the top cancels a one-entry trace
immediately, and a drained Pressed(A) batch is emitted in full before a
cancelled follow-up iteration is considered. -/
theorem cancellation_observed_at_top_witness :
    runLoop initState [⟨false, PollResult.eintr, none, none⟩] =
      (initState, [], ExitKind.cancelled) ∧
    (runLoop initState
        [⟨true, PollResult.ok 1, some true, some [⟨EV_KEY, KEY_A, 1⟩]⟩,
         ⟨false, PollResult.eintr, none, none⟩]).2.1 =
      (processEvents initState [⟨EV_KEY, KEY_A, 1⟩]).2 ++
        (runLoop (processEvents initState [⟨EV_KEY, KEY_A, 1⟩]).1
          [⟨false, PollResult.eintr, none, none⟩]).2.1 := by
  refine ⟨(cancellation_observed_at_top initState
    ⟨false, PollResult.eintr, none, none⟩ []).1 rfl, ?_⟩
  exact ((cancellation_observed_at_top initState
    ⟨true, PollResult.ok 1, some true, some [⟨EV_KEY, KEY_A, 1⟩]⟩
    [⟨false, PollResult.eintr, none, none⟩]).2
    [⟨EV_KEY, KEY_A, 1⟩] 1 rfl rfl (by decide) rfl rfl).1

/-- Claim C5 counterexample: on the fatal poll-error path and on the hard
read-failure path the program returns without ever reaching the
`dev.ungrab()` call — only the graceful path executes it. -/
theorem grab_not_released_on_fatal_paths :
    (runMain initState [⟨true, PollResult.err, none, none⟩]).2 =
      ExitKind.pollError ∧
    (runMain initState [⟨true, PollResult.err, none, none⟩]).1 = [] ∧
    (runMain initState [⟨true, PollResult.ok 1, some true, none⟩]).2 =
      ExitKind.readError ∧
    (runMain initState [⟨true, PollResult.ok 1, some true, none⟩]).1 = [] := by
  decide

/-- No emission action is the ungrab action. -/
lemma ungrab_not_emitted (out : List InputEvent) :
    ProgAction.ungrab ∉ out.map ProgAction.emitted := by
  simp [List.mem_map]

/-- Claim C5 amended: the explicit `dev.ungrab()` call runs exactly on
the graceful-cancellation exit — there, after the release message and
after all emitted events — while the fatal poll-error and read-failure
paths return the error without executing it (any release of the grab on
those paths is left to the dropped device handle, outside this code). -/
theorem ungrab_only_on_cancellation (st : KeyState) (trace : List IterInput) :
    (ProgAction.ungrab ∈ (runMain st trace).1 ↔
      (runMain st trace).2 = ExitKind.cancelled) ∧
    ((runMain st trace).2 = ExitKind.cancelled →
      (runMain st trace).1 =
        ((runLoop st trace).2.1.map ProgAction.emitted) ++
          [ProgAction.printedRelease, ProgAction.ungrab]) := by
  unfold runMain
  rcases h : runLoop st trace with ⟨st2, out, ek⟩
  cases ek <;> simp [ungrab_not_emitted]

/-- Witness for the amended C5: a trace cancelled at once yields the
release message followed by the ungrab, and the membership equivalence
holds there. -/
theorem ungrab_only_on_cancellation_witness :
    (runMain initState [⟨false, PollResult.eintr, none, none⟩]).1 =
      ((runLoop initState
          [⟨false, PollResult.eintr, none, none⟩]).2.1.map
        ProgAction.emitted) ++
        [ProgAction.printedRelease, ProgAction.ungrab] := by
  exact (ungrab_only_on_cancellation initState
    [⟨false, PollResult.eintr, none, none⟩]).2 (by decide)

end SnapTap
